import Mathlib

/-!
Shallow embedding of the Sokoban core from `src/rs/src/main.rs`.

Modelling conventions:
* `usize` is modelled as `Nat`; `isize` as `Int`.  Arithmetic that can panic
  in a debug build (overflowing `usize`/`isize` addition, underflowing
  `usize` subtraction) and out-of-bounds slice indexing are modelled in the
  `Except Err` monad, with a distinct error constructor per panic class.
* A `Layer<T>` is a flat array of `BOARD_WIDTH * BOARD_HEIGHT` elements;
  we model it as a `List` of that exact length (the Rust array length is a
  type-level fact).
* `Board::find_player` panics when no player exists; this is the
  `Err.noPlayer` error.
-/

deriving instance DecidableEq for Except

/-- Distinct panic classes of the Rust code. -/
inductive Err : Type where
  | oob : Err
  | overflow : Err
  | underflow : Err
  | noPlayer : Err
deriving DecidableEq

/-- `Tile` from the source: static terrain of a cell. -/
inductive Tile : Type where
  | None : Tile
  | Wall : Tile
  | Goal : Tile
deriving DecidableEq

/-- `Obj` from the source: movable content of a cell. -/
inductive Obj : Type where
  | None : Obj
  | Player : Obj
  | Box : Obj
deriving DecidableEq

def BOARD_WIDTH : Nat := 8

def BOARD_HEIGHT : Nat := 8

/-- The modulus of `usize` arithmetic (64-bit target). -/
def USIZE : Nat := 2 ^ 64

/-- `type Coord = usize`; `type Vec2D = (Coord, Coord)`.  `usize` values are
modelled as `Nat` (the pair components are written `Nat` directly so that
arithmetic automation sees them). -/
abbrev Vec2D := Nat × Nat

/-- `type Off2D = (isize, isize)`. -/
abbrev Off2D := Int × Int

/-- `struct Layer<T>([T; BOARD_WIDTH * BOARD_HEIGHT])`. -/
def Layer (α : Type) : Type := { l : List α // l.length = BOARD_WIDTH * BOARD_HEIGHT }

instance {α : Type} [DecidableEq α] : DecidableEq (Layer α) :=
  Subtype.instDecidableEq

/-- `Layer::index((x, y)) = x + y * BOARD_WIDTH` (exact value, before any
overflow check; the Rust debug build panics when it exceeds `usize`). -/
def Layer.index (c : Vec2D) : Nat := c.1 + c.2 * BOARD_WIDTH

/-- Indexing a layer with a `Vec2D` (`impl Index<Vec2D> for Layer<T>`).
The flat index is computed with `usize` arithmetic that panics on overflow
(`Err.overflow`); an index past the array length panics (`Err.oob`). -/
def Layer.get {α : Type} (l : Layer α) (c : Vec2D) : Except Err α :=
  if Layer.index c < USIZE then
    match l.val[Layer.index c]? with
    | some a => Except.ok a
    | none => Except.error Err.oob
  else Except.error Err.overflow

/-- `Layer::swap(v1, v2)`: exchanges the two cells' contents
(`self.0.swap(Self::index(v1), Self::index(v2))`). -/
def Layer.swap {α : Type} (l : Layer α) (v1 v2 : Vec2D) : Except Err (Layer α) :=
  match l.get v1, l.get v2 with
  | Except.ok a, Except.ok b =>
      Except.ok ⟨(l.val.set (Layer.index v1) b).set (Layer.index v2) a, by
        simp [List.length_set, l.property]⟩
  | Except.error e, _ => Except.error e
  | _, Except.error e => Except.error e

/-- `struct Board { tiles: Layer<Tile>, objects: Layer<Obj> }`. -/
structure Board : Type where
  tiles : Layer Tile
  objects : Layer Obj
deriving DecidableEq

/-- The row-major scan order of `Board::find_player`: `y` outer from 0 to 7,
`x` inner from 0 to 7. -/
def coordList : List Vec2D :=
  (List.range BOARD_HEIGHT).flatMap (fun y => (List.range BOARD_WIDTH).map (fun x => (x, y)))

/-- `Board::find_player`: returns the first cell (row-major) whose object is
`Player`; panics (`Err.noPlayer`) when there is none. -/
def Board.find_player (b : Board) : Except Err Vec2D :=
  match coordList.find? (fun c =>
      match b.objects.get c with
      | Except.ok Obj.Player => true
      | _ => false) with
  | some c => Except.ok c
  | none => Except.error Err.noPlayer

/-- `Board::count_goals`: counts the cells whose tile is `Goal`
(`self.tiles.0.iter().filter(|&x| *x == Tile::Goal).count()`); the object
layer is not consulted. -/
def Board.count_goals (b : Board) : Nat :=
  b.tiles.val.countP (fun t => decide (t = Tile.Goal))

/-- The value a `usize` bit-pattern denotes when reinterpreted as `isize`
(`px as isize`). -/
def usizeAsIsize (n : Nat) : Int :=
  if n % USIZE < 2 ^ 63 then ((n % USIZE : Nat) : Int) else ((n % USIZE : Nat) : Int) - (USIZE : Int)

/-- `isize` addition; panics (`Err.overflow`) when the exact sum leaves the
`isize` range, as a Rust debug build does. -/
def isizeAdd (a b : Int) : Except Err Int :=
  if -(2 ^ 63 : Int) ≤ a + b ∧ a + b < 2 ^ 63 then Except.ok (a + b) else Except.error Err.overflow

/-- The value an `isize` denotes when reinterpreted as `usize` (`.. as usize`). -/
def isizeAsUsize (i : Int) : Nat := (i % (USIZE : Int)).toNat

/-- `fn offset((px, py): Vec2D, (ox, oy): Off2D) -> Vec2D`:
`((px as isize + ox) as usize, (py as isize + oy) as usize)`. -/
def offsetE (p : Vec2D) (o : Off2D) : Except Err Vec2D :=
  match isizeAdd (usizeAsIsize p.1) o.1 with
  | Except.error e => Except.error e
  | Except.ok x =>
    match isizeAdd (usizeAsIsize p.2) o.2 with
    | Except.error e => Except.error e
    | Except.ok y => Except.ok (isizeAsUsize x, isizeAsUsize y)

/-- `struct Game { board: Board, player_index: Vec2D, goals_left: usize }`. -/
structure Game : Type where
  board : Board
  player_index : Vec2D
  goals_left : Nat
deriving DecidableEq

/-- `Game::new(board)`: caches `find_player()` and `count_goals()`. -/
def Game.new (board : Board) : Except Err Game :=
  match board.find_player with
  | Except.error e => Except.error e
  | Except.ok p => Except.ok { board := board, player_index := p, goals_left := board.count_goals }

/-- `Game::move_box(source, off) -> bool`, in the `Except Err` monad.
Mirrors the source line by line: compute `target`, fail (returning `false`)
when the target tile is `Wall` or the target object is not `None`
(short-circuit `||`, so the object is only read when the tile is not a
wall), then adjust `goals_left` (debug-build `usize` overflow and underflow
panic) and swap the two object cells. -/
def Game.move_box (g : Game) (source : Vec2D) (off : Off2D) : Except Err (Game × Bool) :=
  match offsetE source off with
  | Except.error e => Except.error e
  | Except.ok target =>
    match g.board.tiles.get target with
    | Except.error e => Except.error e
    | Except.ok tt =>
      if tt = Tile.Wall then Except.ok (g, false)
      else
        match g.board.objects.get target with
        | Except.error e => Except.error e
        | Except.ok ot =>
          if ot ≠ Obj.None then Except.ok (g, false)
          else
            match g.board.tiles.get source with
            | Except.error e => Except.error e
            | Except.ok ts =>
              match (if ts = Tile.Goal then
                      (if g.goals_left + 1 < USIZE then
                        Except.ok { g with goals_left := g.goals_left + 1 }
                       else Except.error Err.overflow)
                     else Except.ok g) with
              | Except.error e => Except.error e
              | Except.ok g1 =>
                match (if tt = Tile.Goal then
                        (if g1.goals_left = 0 then Except.error Err.underflow
                         else Except.ok { g1 with goals_left := g1.goals_left - 1 })
                       else Except.ok g1) with
                | Except.error e => Except.error e
                | Except.ok g2 =>
                  match g2.board.objects.swap target source with
                  | Except.error e => Except.error e
                  | Except.ok objs =>
                    Except.ok ({ g2 with board := { g2.board with objects := objs } }, true)

/-- `Game::move_player(off)`, in the `Except Err` monad.  Mirrors the
source: compute `target`; when the target object is a `Box`, attempt
`move_box` (whose mutations persist even if the player move then aborts);
abort when the target tile is `Wall` or the push failed; otherwise swap the
player into the target cell and update `player_index`. -/
def Game.move_player (g : Game) (off : Off2D) : Except Err Game :=
  match offsetE g.player_index off with
  | Except.error e => Except.error e
  | Except.ok target =>
    match g.board.objects.get target with
    | Except.error e => Except.error e
    | Except.ok ot =>
      match (if ot = Obj.Box then g.move_box target off else Except.ok (g, true)) with
      | Except.error e => Except.error e
      | Except.ok (g1, pushed) =>
        match g1.board.tiles.get target with
        | Except.error e => Except.error e
        | Except.ok tt =>
          if tt = Tile.Wall ∨ (ot = Obj.Box ∧ pushed = false) then Except.ok g1
          else
            match g1.board.objects.swap target g1.player_index with
            | Except.error e => Except.error e
            | Except.ok objs =>
              Except.ok { g1 with
                board := { g1.board with objects := objs }, player_index := target }

/-- `static TILE_LAYER` from the source (`o` = None, `H` = Wall, `X` = Goal). -/
def TILE_LAYER : Layer Tile :=
  ⟨[Tile.Wall, Tile.Wall, Tile.Wall, Tile.Wall, Tile.Wall, Tile.Wall, Tile.Wall, Tile.Wall,
    Tile.Wall, Tile.Wall, Tile.None, Tile.None, Tile.None, Tile.None, Tile.None, Tile.Wall,
    Tile.Wall, Tile.None, Tile.None, Tile.None, Tile.None, Tile.None, Tile.None, Tile.Wall,
    Tile.Wall, Tile.None, Tile.None, Tile.None, Tile.None, Tile.None, Tile.None, Tile.Wall,
    Tile.Wall, Tile.None, Tile.None, Tile.None, Tile.Wall, Tile.None, Tile.Goal, Tile.Wall,
    Tile.Wall, Tile.None, Tile.None, Tile.None, Tile.None, Tile.None, Tile.Goal, Tile.Wall,
    Tile.Wall, Tile.None, Tile.None, Tile.None, Tile.Goal, Tile.Goal, Tile.Goal, Tile.Wall,
    Tile.Wall, Tile.Wall, Tile.Wall, Tile.Wall, Tile.Wall, Tile.Wall, Tile.Wall, Tile.Wall],
   by decide⟩

/-- `static OBJECT_LAYER` from the source (`o` = None, `P` = Player, `B` = Box). -/
def OBJECT_LAYER : Layer Obj :=
  ⟨[Obj.None, Obj.None, Obj.None, Obj.None, Obj.None, Obj.None, Obj.None, Obj.None,
    Obj.None, Obj.None, Obj.None, Obj.None, Obj.None, Obj.None, Obj.None, Obj.None,
    Obj.None, Obj.None, Obj.Box, Obj.Box, Obj.None, Obj.None, Obj.None, Obj.None,
    Obj.None, Obj.None, Obj.Box, Obj.None, Obj.Box, Obj.None, Obj.None, Obj.None,
    Obj.None, Obj.None, Obj.None, Obj.None, Obj.None, Obj.None, Obj.None, Obj.None,
    Obj.None, Obj.None, Obj.None, Obj.None, Obj.Box, Obj.None, Obj.None, Obj.None,
    Obj.None, Obj.Player, Obj.None, Obj.None, Obj.None, Obj.None, Obj.None, Obj.None,
    Obj.None, Obj.None, Obj.None, Obj.None, Obj.None, Obj.None, Obj.None, Obj.None],
   by decide⟩

/-- The fixed initial board of `restart()`. -/
def initBoard : Board := { tiles := TILE_LAYER, objects := OBJECT_LAYER }

/-- The game `Game::new` builds from the fixed initial board: the player is
first found at `(1, 6)` and there are 5 goal tiles. -/
def initGame : Game := { board := initBoard, player_index := (1, 6), goals_left := 5 }

/-- The four offsets the driver loop can pass to `move_player`
(`w`/`s`/`a`/`d`). -/
def canonicalOffsets : List Off2D := [(0, -1), (0, 1), (-1, 0), (1, 0)]

/-- Whether flat cell `i` is an uncovered goal: Tile = Goal and Object ≠ Box. -/
def uncovP (b : Board) : Nat → Bool := fun i =>
  decide (b.tiles.val[i]? = some Tile.Goal ∧ ¬ b.objects.val[i]? = some Obj.Box)

/-- Modelled from the spec: `count_goals_uncovered() -> integer` — "counts
cells where Tile = Goal and Object ≠ Box".  The source has no such function
(`Board::count_goals` ignores the object layer); this definition follows
the spec's words and is compared against the source's behaviour. -/
def count_goals_uncovered (b : Board) : Nat :=
  (List.range (BOARD_WIDTH * BOARD_HEIGHT)).countP (uncovP b)

/-- A cell strictly inside the outer ring of the 8×8 grid. -/
def Interior (c : Vec2D) : Prop :=
  1 ≤ c.1 ∧ c.1 ≤ 6 ∧ 1 ≤ c.2 ∧ c.2 ≤ 6

instance (c : Vec2D) : Decidable (Interior c) := by
  unfold Interior; infer_instance

/-- The pure value of `offset` at inputs where no cast wraps and no
addition overflows. -/
def addOff (p : Vec2D) (o : Off2D) : Vec2D :=
  (((p.1 : Int) + o.1).toNat, ((p.2 : Int) + o.2).toNat)

/-- The inductive invariant of reachable game states: the tile layer is the
fixed one, the cached player position is on the grid and holds the unique
`Player` object, no object sits on a `Wall` tile, and `goals_left` is the
number of uncovered goals. -/
def GameInv (g : Game) : Prop :=
  g.board.tiles = TILE_LAYER ∧
  g.player_index.1 < 8 ∧ g.player_index.2 < 8 ∧
  g.board.objects.get g.player_index = Except.ok Obj.Player ∧
  (∀ i < 64, g.board.objects.val[i]? = some Obj.Player → i = Layer.index g.player_index) ∧
  (∀ i < 64, g.board.tiles.val[i]? = some Tile.Wall → g.board.objects.val[i]? = some Obj.None) ∧
  g.goals_left = count_goals_uncovered g.board

instance (g : Game) : Decidable (GameInv g) := by
  unfold GameInv; infer_instance

/-- The states reachable in the program: the initial game of `restart()`,
closed under `move_player` with the four driver offsets. -/
inductive Reachable : Game → Prop where
  | init : Reachable initGame
  | step {g : Game} {off : Off2D} {g' : Game} : Reachable g → off ∈ canonicalOffsets →
      g.move_player off = Except.ok g' → Reachable g'

/-- A fully applied player move: the player relocated from its old cell to
the target; when a box was pushed, the box relocated one further cell and
`goals_left` was adjusted by the source/destination tiles of the box;
otherwise `goals_left` is unchanged. -/
def FullMove (g g' : Game) (off : Off2D) : Prop :=
  ∃ t, offsetE g.player_index off = Except.ok t ∧
    g'.player_index = t ∧
    g'.board.tiles = g.board.tiles ∧
    g'.board.objects.get t = Except.ok Obj.Player ∧
    g'.board.objects.get g.player_index = Except.ok Obj.None ∧
    (g.board.objects.get t = Except.ok Obj.Box →
      ∃ t2, offsetE t off = Except.ok t2 ∧
        g'.board.objects.get t2 = Except.ok Obj.Box ∧
        g'.goals_left + (if g.board.tiles.get t2 = Except.ok Tile.Goal then 1 else 0)
          = g.goals_left + (if g.board.tiles.get t = Except.ok Tile.Goal then 1 else 0)) ∧
    (g.board.objects.get t ≠ Except.ok Obj.Box → g'.goals_left = g.goals_left)

/-- Board used to refute claim C1 as universally stated: its single goal
tile (cell 0) is covered by a box from the start. -/
def cexBoard : Board :=
  { tiles :=
      ⟨[Tile.Goal, Tile.None, Tile.None, Tile.None, Tile.None, Tile.None, Tile.None, Tile.None,
        Tile.None, Tile.None, Tile.None, Tile.None, Tile.None, Tile.None, Tile.None, Tile.None,
        Tile.None, Tile.None, Tile.None, Tile.None, Tile.None, Tile.None, Tile.None, Tile.None,
        Tile.None, Tile.None, Tile.None, Tile.None, Tile.None, Tile.None, Tile.None, Tile.None,
        Tile.None, Tile.None, Tile.None, Tile.None, Tile.None, Tile.None, Tile.None, Tile.None,
        Tile.None, Tile.None, Tile.None, Tile.None, Tile.None, Tile.None, Tile.None, Tile.None,
        Tile.None, Tile.None, Tile.None, Tile.None, Tile.None, Tile.None, Tile.None, Tile.None,
        Tile.None, Tile.None, Tile.None, Tile.None, Tile.None, Tile.None, Tile.None, Tile.None],
       by decide⟩,
    objects :=
      ⟨[Obj.Box, Obj.Player, Obj.None, Obj.None, Obj.None, Obj.None, Obj.None, Obj.None,
        Obj.None, Obj.None, Obj.None, Obj.None, Obj.None, Obj.None, Obj.None, Obj.None,
        Obj.None, Obj.None, Obj.None, Obj.None, Obj.None, Obj.None, Obj.None, Obj.None,
        Obj.None, Obj.None, Obj.None, Obj.None, Obj.None, Obj.None, Obj.None, Obj.None,
        Obj.None, Obj.None, Obj.None, Obj.None, Obj.None, Obj.None, Obj.None, Obj.None,
        Obj.None, Obj.None, Obj.None, Obj.None, Obj.None, Obj.None, Obj.None, Obj.None,
        Obj.None, Obj.None, Obj.None, Obj.None, Obj.None, Obj.None, Obj.None, Obj.None,
        Obj.None, Obj.None, Obj.None, Obj.None, Obj.None, Obj.None, Obj.None, Obj.None],
       by decide⟩ }

/-- The game `Game::new` builds from `cexBoard`. -/
def cexGame : Game := { board := cexBoard, player_index := (1, 0), goals_left := 1 }

/-- The game after the concrete box push used as witness for C5: pushing
the box at `(4, 3)` one cell right onto `(5, 3)`. -/
def c5Game : Game :=
  ((initGame.move_box (4, 3) (1, 0)).toOption.getD (initGame, false)).1

/-- The game after the concrete legal plain move used as witness for C9:
moving up from `(1, 6)` to `(1, 5)`. -/
def c9Game : Game :=
  (initGame.move_player (0, -1)).toOption.getD initGame

/-! ### Basic facts about layers and flat indices -/

theorem Layer.length_val {α : Type} (l : Layer α) : l.val.length = 64 := l.property

theorem Layer.index_lt_64 {c : Vec2D} (h1 : c.1 < 8) (h2 : c.2 < 8) : Layer.index c < 64 := by
  obtain ⟨x, y⟩ := c
  simp only [Layer.index, BOARD_WIDTH] at *
  omega

theorem Layer.index_inj {c c' : Vec2D} (h1 : c.1 < 8) (h1' : c'.1 < 8)
    (h : Layer.index c = Layer.index c') : c = c' := by
  obtain ⟨x, y⟩ := c
  obtain ⟨x', y'⟩ := c'
  simp only [Layer.index, BOARD_WIDTH, Prod.mk.injEq] at *
  omega

theorem Layer.get_eq_ok {α : Type} {l : Layer α} {c : Vec2D} {a : α} :
    l.get c = Except.ok a ↔ l.val[Layer.index c]? = some a := by
  unfold Layer.get
  by_cases h : Layer.index c < USIZE
  · simp only [if_pos h]
    cases hv : l.val[Layer.index c]? with
    | some b => simp
    | none => simp
  · simp only [if_neg h]
    have hlen : l.val.length ≤ Layer.index c := by
      rw [Layer.length_val]
      unfold USIZE at h; omega
    rw [List.getElem?_eq_none hlen]
    simp

theorem Layer.get_ok_of_lt {α : Type} (l : Layer α) {c : Vec2D}
    (h : Layer.index c < 64) : ∃ a, l.get c = Except.ok a ∧ l.val[Layer.index c]? = some a := by
  have h' : Layer.index c < l.val.length := by rw [Layer.length_val]; exact h
  refine ⟨l.val[Layer.index c], ?_, List.getElem?_eq_getElem h'⟩
  rw [Layer.get_eq_ok]
  exact List.getElem?_eq_getElem h'

/-- Contents of a list after the two `set`s a swap performs. -/
theorem List.getElem?_set_set {α : Type} {l : List α} {i1 i2 : Nat} (j : Nat) {b a : α}
    (h1 : i1 < l.length) (h2 : i2 < l.length) :
    ((l.set i1 b).set i2 a)[j]? = if j = i2 then some a else if j = i1 then some b else l[j]? := by
  by_cases hj2 : j = i2
  · subst hj2
    rw [List.getElem?_set_eq (by simpa using h2)]
    simp
  · rw [List.getElem?_set_ne (fun h => hj2 h.symm)]
    by_cases hj1 : j = i1
    · subst hj1
      rw [List.getElem?_set_eq h1]
      simp [hj2]
    · rw [List.getElem?_set_ne (fun h => hj1 h.symm)]
      simp [hj2, hj1]

theorem Layer.swap_eq_ok {α : Type} {l : Layer α} {v1 v2 : Vec2D} {a b : α}
    (h1 : l.get v1 = Except.ok a) (h2 : l.get v2 = Except.ok b) :
    ∃ l', l.swap v1 v2 = Except.ok l' ∧
      ∀ j, l'.val[j]? = if j = Layer.index v2 then some a
        else if j = Layer.index v1 then some b else l.val[j]? := by
  have hv1 : l.val[Layer.index v1]? = some a := Layer.get_eq_ok.1 h1
  have hv2 : l.val[Layer.index v2]? = some b := Layer.get_eq_ok.1 h2
  have hl1 : Layer.index v1 < l.val.length := (List.getElem?_eq_some.1 hv1).1
  have hl2 : Layer.index v2 < l.val.length := (List.getElem?_eq_some.1 hv2).1
  unfold Layer.swap
  rw [h1, h2]
  exact ⟨_, rfl, fun j => List.getElem?_set_set j hl1 hl2⟩

/-! ### Counting lemmas -/

/-- Counting over `range n` when two predicates differ at most at `j`. -/
theorem countP_range_update {p q : Nat → Bool} {n j : Nat} (hj : j < n)
    (hpq : ∀ i, i ≠ j → p i = q i) :
    (List.range n).countP q + (if p j then 1 else 0)
      = (List.range n).countP p + (if q j then 1 else 0) := by
  induction n with
  | zero => omega
  | succ n ih =>
    rw [List.range_succ, List.countP_append, List.countP_append]
    simp only [List.countP_cons, List.countP_nil]
    by_cases hjn : j = n
    · subst hjn
      have : (List.range j).countP q = (List.range j).countP p := by
        apply List.countP_congr
        intro x hx
        rw [hpq x (by simp at hx; omega)]
      rw [this]; omega
    · have hj' : j < n := by omega
      have := ih hj'
      rw [hpq n (fun h => hjn h.symm)]
      omega

/-- Counting over `range n` when two predicates differ at most at two
distinct places. -/
theorem countP_range_update2 {p q : Nat → Bool} {n j1 j2 : Nat} (hj1 : j1 < n) (hj2 : j2 < n)
    (hne : j1 ≠ j2) (hpq : ∀ i, i ≠ j1 → i ≠ j2 → p i = q i) :
    (List.range n).countP q + (if p j1 then 1 else 0) + (if p j2 then 1 else 0)
      = (List.range n).countP p + (if q j1 then 1 else 0) + (if q j2 then 1 else 0) := by
  let r : Nat → Bool := fun i => if i = j1 then q i else p i
  have h1 : (List.range n).countP r + (if p j1 then 1 else 0)
      = (List.range n).countP p + (if r j1 then 1 else 0) := by
    apply countP_range_update hj1
    intro i hi
    simp only [r, if_neg hi]
  have h2 : (List.range n).countP q + (if r j2 then 1 else 0)
      = (List.range n).countP r + (if q j2 then 1 else 0) := by
    apply countP_range_update hj2
    intro i hi
    by_cases hij1 : i = j1
    · subst hij1; simp only [r, if_pos rfl]
    · simp only [r, if_neg hij1]
      exact hpq i hij1 hi
  have hr1 : r j1 = q j1 := by simp only [r, if_pos rfl]
  have hne' : j2 ≠ j1 := fun h => hne h.symm
  have hr2 : r j2 = p j2 := by simp only [r, if_neg hne']
  rw [hr1] at h1
  rw [hr2] at h2
  omega

/-- A position where the predicate holds makes the count positive. -/
theorem countP_range_pos {p : Nat → Bool} {n j : Nat} (hj : j < n) (hp : p j = true) :
    1 ≤ (List.range n).countP p := by
  have : 0 < (List.range n).countP p := List.countP_pos.2 ⟨j, List.mem_range.2 hj, hp⟩
  omega

/-- A `countP` over a list equals the count over its index range. -/
theorem countP_eq_range {α : Type} (l : List α) (p : α → Bool) :
    (List.range l.length).countP (fun i => (l[i]?.elim false p)) = l.countP p := by
  induction l with
  | nil => simp
  | cons a l ih =>
    have hsucc : List.countP (fun i => ((a :: l)[i]?.elim false p))
        (List.map Nat.succ (List.range l.length)) = l.countP p := by
      rw [List.countP_map, ← ih]
      apply List.countP_congr
      intro x _
      simp [Function.comp]
    rw [List.length_cons, List.range_succ_eq_map, List.countP_cons, hsucc, List.countP_cons]
    simp

/-! ### Arithmetic facts about `offset` -/

theorem usizeAsIsize_small {n : Nat} (h : n < 2 ^ 63) : usizeAsIsize n = (n : Int) := by
  unfold usizeAsIsize USIZE
  have hmod : n % 2 ^ 64 = n := Nat.mod_eq_of_lt (by omega)
  rw [hmod, if_pos h]

theorem isizeAdd_exact {a b : Int} (h1 : -(2 ^ 63) ≤ a + b) (h2 : a + b < 2 ^ 63) :
    isizeAdd a b = Except.ok (a + b) := by
  unfold isizeAdd
  rw [if_pos ⟨h1, h2⟩]

theorem isizeAsUsize_nonneg {i : Int} (h0 : 0 ≤ i) (h : i < 2 ^ 64) : isizeAsUsize i = i.toNat := by
  unfold isizeAsUsize USIZE
  rw [Int.emod_eq_of_lt h0 (by exact_mod_cast h)]

theorem offsetE_of_bounds {q : Vec2D} {o : Off2D}
    (hq1 : q.1 < 2 ^ 63) (hq2 : q.2 < 2 ^ 63)
    (hx1 : 0 ≤ (q.1 : Int) + o.1) (hx2 : (q.1 : Int) + o.1 < 2 ^ 63)
    (hy1 : 0 ≤ (q.2 : Int) + o.2) (hy2 : (q.2 : Int) + o.2 < 2 ^ 63) :
    offsetE q o = Except.ok (addOff q o) := by
  unfold offsetE
  rw [usizeAsIsize_small hq1, usizeAsIsize_small hq2,
    isizeAdd_exact (by omega) hx2, isizeAdd_exact (by omega) hy2]
  show Except.ok (isizeAsUsize ((q.1 : Int) + o.1), isizeAsUsize ((q.2 : Int) + o.2))
      = Except.ok (addOff q o)
  rw [isizeAsUsize_nonneg hx1 (by omega), isizeAsUsize_nonneg hy1 (by omega)]
  rfl

theorem offsetE_canonical {q : Vec2D} {o : Off2D} (ho : o ∈ canonicalOffsets)
    (hq : Interior q) : offsetE q o = Except.ok (addOff q o) := by
  obtain ⟨h1, h2, h3, h4⟩ := hq
  simp only [canonicalOffsets, List.mem_cons, List.not_mem_nil, or_false] at ho
  rcases ho with h | h | h | h <;> subst h <;>
    exact offsetE_of_bounds (by omega) (by omega) (by omega) (by omega) (by omega) (by omega)

theorem addOff_canonical {q : Vec2D} {o : Off2D} (ho : o ∈ canonicalOffsets)
    (hq : Interior q) :
    (addOff q o).1 < 8 ∧ (addOff q o).2 < 8 ∧ Layer.index (addOff q o) ≠ Layer.index q := by
  obtain ⟨h1, h2, h3, h4⟩ := hq
  obtain ⟨x, y⟩ := q
  simp only [canonicalOffsets, List.mem_cons, List.not_mem_nil, or_false] at ho
  rcases ho with h | h | h | h <;> subst h <;>
    simp only [addOff, Layer.index, BOARD_WIDTH] at * <;> omega

theorem addOff2_canonical {q : Vec2D} {o : Off2D} (ho : o ∈ canonicalOffsets)
    (hq : Interior q) (hq' : Interior (addOff q o)) :
    (addOff (addOff q o) o).1 < 8 ∧ (addOff (addOff q o) o).2 < 8 ∧
    Layer.index (addOff (addOff q o) o) ≠ Layer.index q ∧
    Layer.index (addOff (addOff q o) o) ≠ Layer.index (addOff q o) := by
  obtain ⟨h1, h2, h3, h4⟩ := hq
  obtain ⟨h1', h2', h3', h4'⟩ := hq'
  obtain ⟨x, y⟩ := q
  simp only [canonicalOffsets, List.mem_cons, List.not_mem_nil, or_false] at ho
  rcases ho with h | h | h | h <;> subst h <;>
    simp only [addOff, Layer.index, BOARD_WIDTH] at * <;> omega

/-! ### Facts about the fixed tile layer -/

/-- In the fixed tile layer, every non-`Wall` cell is strictly inside the
outer ring. -/
theorem TILE_nonwall_interior :
    ∀ x < 8, ∀ y < 8,
      TILE_LAYER.val[Layer.index (x, y)]? ≠ some Tile.Wall → Interior (x, y) := by
  decide

/-! ### Consequences of the game invariant -/

theorem gameInv_no_obj_on_wall {g : Game} (h : GameInv g) {c : Vec2D} (hc1 : c.1 < 8)
    (hc2 : c.2 < 8) {o : Obj} (hobj : g.board.objects.val[Layer.index c]? = some o)
    (ho : o ≠ Obj.None) : Interior c := by
  have htiles := h.1
  have hwall := h.2.2.2.2.2.1
  have hidx := Layer.index_lt_64 hc1 hc2
  have hnw : g.board.tiles.val[Layer.index c]? ≠ some Tile.Wall := by
    intro hw
    have := hwall _ hidx hw
    rw [hobj] at this
    exact ho (by injection this)
  rw [htiles] at hnw
  exact TILE_nonwall_interior c.1 hc1 c.2 hc2 hnw

theorem gameInv_player_flat {g : Game} (h : GameInv g) :
    g.board.objects.val[Layer.index g.player_index]? = some Obj.Player :=
  Layer.get_eq_ok.1 h.2.2.2.1

theorem gameInv_player_interior {g : Game} (h : GameInv g) : Interior g.player_index :=
  gameInv_no_obj_on_wall h h.2.1 h.2.2.1 (gameInv_player_flat h) (by simp)

theorem gameInv_goals_le {g : Game} (h : GameInv g) : g.goals_left ≤ 64 := by
  have := h.2.2.2.2.2.2
  rw [this]
  unfold count_goals_uncovered
  calc (List.range (BOARD_WIDTH * BOARD_HEIGHT)).countP (uncovP g.board)
      ≤ (List.range (BOARD_WIDTH * BOARD_HEIGHT)).length := List.countP_le_length _
    _ = 64 := by simp [BOARD_WIDTH, BOARD_HEIGHT]

/-! ### Characterizations of `move_box` and `move_player` -/

theorem move_box_fail_wall {g : Game} {source target : Vec2D} {off : Off2D}
    (ht : offsetE source off = Except.ok target)
    (htt : g.board.tiles.get target = Except.ok Tile.Wall) :
    g.move_box source off = Except.ok (g, false) := by
  simp [Game.move_box, ht, htt]

theorem move_box_fail_occupied {g : Game} {source target : Vec2D} {off : Off2D} {tt : Tile}
    {ot : Obj} (ht : offsetE source off = Except.ok target)
    (htt : g.board.tiles.get target = Except.ok tt) (hW : tt ≠ Tile.Wall)
    (hot : g.board.objects.get target = Except.ok ot) (hO : ot ≠ Obj.None) :
    g.move_box source off = Except.ok (g, false) := by
  simp [Game.move_box, ht, htt, hW, hot, hO]

theorem move_box_success {g : Game} {source target : Vec2D} {off : Off2D} {ts tt : Tile}
    {os : Obj}
    (ht : offsetE source off = Except.ok target)
    (htt : g.board.tiles.get target = Except.ok tt) (hW : tt ≠ Tile.Wall)
    (hot : g.board.objects.get target = Except.ok Obj.None)
    (hts : g.board.tiles.get source = Except.ok ts)
    (hos : g.board.objects.get source = Except.ok os)
    (hovf : ts = Tile.Goal → g.goals_left + 1 < USIZE)
    (hund : tt = Tile.Goal → (if ts = Tile.Goal then g.goals_left + 1 else g.goals_left) ≠ 0) :
    ∃ objs, g.board.objects.swap target source = Except.ok objs ∧
      g.move_box source off = Except.ok
        ({ g with
            board := { g.board with objects := objs },
            goals_left :=
              (if tt = Tile.Goal then
                (if ts = Tile.Goal then g.goals_left + 1 else g.goals_left) - 1
               else (if ts = Tile.Goal then g.goals_left + 1 else g.goals_left)) }, true) ∧
      ∀ j, objs.val[j]? =
        if j = Layer.index source then some Obj.None
        else if j = Layer.index target then some os
        else g.board.objects.val[j]? := by
  obtain ⟨objs, hsw, hget⟩ := Layer.swap_eq_ok hot hos
  refine ⟨objs, hsw, ?_, hget⟩
  by_cases hts1 : ts = Tile.Goal
  · have hguard := hovf hts1
    by_cases htt1 : tt = Tile.Goal
    · have hg0 := hund htt1
      rw [if_pos hts1] at hg0
      simp [Game.move_box, ht, htt, hW, hot, hts, hts1, htt1, hguard, hg0, hsw]
    · simp [Game.move_box, ht, htt, hW, hot, hts, hts1, htt1, hguard, hsw]
  · by_cases htt1 : tt = Tile.Goal
    · have hg0 := hund htt1
      rw [if_neg hts1] at hg0
      simp [Game.move_box, ht, htt, hW, hot, hts, hts1, htt1, hg0, hsw]
    · simp [Game.move_box, ht, htt, hW, hot, hts, hts1, htt1, hsw]

theorem move_player_noop_wall {g : Game} {off : Off2D} {t : Vec2D} {ot : Obj}
    (ht : offsetE g.player_index off = Except.ok t)
    (hot : g.board.objects.get t = Except.ok ot) (hbox : ot ≠ Obj.Box)
    (htt : g.board.tiles.get t = Except.ok Tile.Wall) :
    g.move_player off = Except.ok g := by
  simp [Game.move_player, ht, hot, hbox, htt]

theorem move_player_noop_failpush {g : Game} {off : Off2D} {t : Vec2D} {tt : Tile}
    (ht : offsetE g.player_index off = Except.ok t)
    (hot : g.board.objects.get t = Except.ok Obj.Box)
    (hmb : g.move_box t off = Except.ok (g, false))
    (htt : g.board.tiles.get t = Except.ok tt) :
    g.move_player off = Except.ok g := by
  simp [Game.move_player, ht, hot, hmb, htt]

theorem move_player_go {g g1 : Game} {off : Off2D} {t : Vec2D} {ot : Obj} {tt : Tile}
    (ht : offsetE g.player_index off = Except.ok t)
    (hot : g.board.objects.get t = Except.ok ot)
    (hr : (if ot = Obj.Box then g.move_box t off else Except.ok (g, true))
      = Except.ok (g1, true))
    (htt : g1.board.tiles.get t = Except.ok tt) (hW : tt ≠ Tile.Wall)
    {a b : Obj} (ha : g1.board.objects.get t = Except.ok a)
    (hb : g1.board.objects.get g1.player_index = Except.ok b) :
    ∃ objs, g1.board.objects.swap t g1.player_index = Except.ok objs ∧
      g.move_player off = Except.ok
        { g1 with board := { g1.board with objects := objs }, player_index := t } ∧
      ∀ j, objs.val[j]? =
        if j = Layer.index g1.player_index then some a
        else if j = Layer.index t then some b else g1.board.objects.val[j]? := by
  obtain ⟨objs, hsw, hget⟩ := Layer.swap_eq_ok ha hb
  refine ⟨objs, hsw, ?_, hget⟩
  simp [Game.move_player, ht, hot, hr, htt, hW, hsw]

/-! ### The master step lemma: totality, invariant preservation, atomicity -/

theorem move_player_spec {g : Game} (hInv : GameInv g) {off : Off2D}
    (hoff : off ∈ canonicalOffsets) :
    ∃ g', g.move_player off = Except.ok g' ∧ GameInv g' ∧ (g' = g ∨ FullMove g g' off) := by
  have hInv' := hInv
  obtain ⟨htiles, hp1, hp2, hpat, huniq, hwall, hgoals⟩ := hInv'
  have hPint : Interior g.player_index := gameInv_player_interior hInv
  have hpflat : g.board.objects.val[Layer.index g.player_index]? = some Obj.Player :=
    gameInv_player_flat hInv
  have hidx_p : Layer.index g.player_index < 64 := Layer.index_lt_64 hp1 hp2
  have ht : offsetE g.player_index off = Except.ok (addOff g.player_index off) :=
    offsetE_canonical hoff hPint
  set t := addOff g.player_index off with htdef
  obtain ⟨ht1, ht2, htne⟩ := addOff_canonical hoff hPint
  rw [← htdef] at ht1 ht2 htne
  have hidx_t : Layer.index t < 64 := Layer.index_lt_64 ht1 ht2
  obtain ⟨ot, hot, hotflat⟩ := Layer.get_ok_of_lt g.board.objects hidx_t
  obtain ⟨tt, htt, httflat⟩ := Layer.get_ok_of_lt g.board.tiles hidx_t
  by_cases hbox : ot = Obj.Box
  · -- the target cell holds a box: a push is attempted
    subst hbox
    have hTint : Interior t := gameInv_no_obj_on_wall hInv ht1 ht2 hotflat (by simp)
    have htW : tt ≠ Tile.Wall := by
      intro hEq
      subst hEq
      have := hwall _ hidx_t httflat
      rw [hotflat] at this
      exact absurd this (by simp)
    have ht2' : offsetE t off = Except.ok (addOff t off) := offsetE_canonical hoff hTint
    set t2 := addOff t off with ht2def
    obtain ⟨ht21, ht22, ht2ne_t⟩ := addOff_canonical hoff hTint
    obtain ⟨-, -, ht2ne_p, -⟩ := addOff2_canonical hoff hPint hTint
    rw [← ht2def] at ht21 ht22 ht2ne_t
    rw [← htdef, ← ht2def] at ht2ne_p
    have hidx_t2 : Layer.index t2 < 64 := Layer.index_lt_64 ht21 ht22
    obtain ⟨tt2, htt2, htt2flat⟩ := Layer.get_ok_of_lt g.board.tiles hidx_t2
    obtain ⟨ot2, hot2, hot2flat⟩ := Layer.get_ok_of_lt g.board.objects hidx_t2
    by_cases hw2 : tt2 = Tile.Wall
    · -- push into a wall: total no-op
      have hmb : g.move_box t off = Except.ok (g, false) :=
        move_box_fail_wall ht2' (by rw [htt2, hw2])
      exact ⟨g, move_player_noop_failpush ht hot hmb htt, hInv, Or.inl rfl⟩
    · by_cases ho2 : ot2 = Obj.None
      · -- the push succeeds
        subst ho2
        have hle := gameInv_goals_le hInv
        have hovf : tt = Tile.Goal → g.goals_left + 1 < USIZE := by
          intro _
          unfold USIZE
          omega
        have huncov_t2 : tt2 = Tile.Goal → uncovP g.board (Layer.index t2) = true := by
          intro hG
          simp [uncovP, htt2flat, hot2flat, hG]
        have hund : tt2 = Tile.Goal →
            (if tt = Tile.Goal then g.goals_left + 1 else g.goals_left) ≠ 0 := by
          intro hG
          by_cases hsg : tt = Tile.Goal
          · simp [hsg]
          · rw [if_neg hsg]
            have h1 : 1 ≤ count_goals_uncovered g.board := by
              unfold count_goals_uncovered
              exact countP_range_pos (by simpa [BOARD_WIDTH, BOARD_HEIGHT] using hidx_t2)
                (huncov_t2 hG)
            omega
        obtain ⟨objs1, hsw1, hmb, hget1⟩ :=
          move_box_success ht2' htt2 hw2 hot2 htt hot hovf hund
        have hr : (if Obj.Box = Obj.Box then g.move_box t off else Except.ok (g, true))
            = Except.ok ({ g with
                board := { g.board with objects := objs1 },
                goals_left :=
                  (if tt2 = Tile.Goal then
                    (if tt = Tile.Goal then g.goals_left + 1 else g.goals_left) - 1
                   else (if tt = Tile.Goal then g.goals_left + 1 else g.goals_left)) }, true) := by
          rw [if_pos rfl]
          exact hmb
        have ha : ({ g with
            board := { g.board with objects := objs1 },
            goals_left :=
              (if tt2 = Tile.Goal then
                (if tt = Tile.Goal then g.goals_left + 1 else g.goals_left) - 1
               else (if tt = Tile.Goal then g.goals_left + 1 else g.goals_left)) } : Game).board.objects.get t = Except.ok Obj.None := by
          apply Layer.get_eq_ok.2
          rw [hget1 (Layer.index t), if_pos rfl]
        have hb : ({ g with
            board := { g.board with objects := objs1 },
            goals_left :=
              (if tt2 = Tile.Goal then
                (if tt = Tile.Goal then g.goals_left + 1 else g.goals_left) - 1
               else (if tt = Tile.Goal then g.goals_left + 1 else g.goals_left)) } : Game).board.objects.get g.player_index = Except.ok Obj.Player := by
          apply Layer.get_eq_ok.2
          rw [hget1 (Layer.index g.player_index),
            if_neg (fun h => htne h.symm), if_neg (fun h => ht2ne_p h.symm)]
          exact hpflat
        obtain ⟨objs2, hsw2, hmp, hget2⟩ := move_player_go ht hot hr htt htW ha hb
        -- the final object layer, pointwise
        have hfin : ∀ j, objs2.val[j]? =
            if j = Layer.index g.player_index then some Obj.None
            else if j = Layer.index t then some Obj.Player
            else if j = Layer.index t2 then some Obj.Box
            else g.board.objects.val[j]? := by
          intro j
          rw [hget2 j]
          by_cases hjp : j = Layer.index g.player_index
          · simp [hjp]
          · rw [if_neg hjp, if_neg hjp]
            by_cases hjt : j = Layer.index t
            · simp [hjt]
            · rw [if_neg hjt, if_neg hjt]
              rw [hget1 j, if_neg hjt]
        refine ⟨_, hmp, ⟨htiles, ht1, ht2, ?_, ?_, ?_, ?_⟩, Or.inr ?_⟩
        · -- player is at the target cell
          apply Layer.get_eq_ok.2
          rw [hfin (Layer.index t), if_neg (fun h => htne h), if_pos rfl]
        · -- the player cell is unique
          intro i hi hplayer
          rw [hfin i] at hplayer
          by_cases hip : i = Layer.index g.player_index
          · rw [if_pos hip] at hplayer
            exact absurd hplayer (by simp)
          · rw [if_neg hip] at hplayer
            by_cases hit : i = Layer.index t
            · exact hit
            · rw [if_neg hit] at hplayer
              by_cases hit2 : i = Layer.index t2
              · rw [if_pos hit2] at hplayer
                exact absurd hplayer (by simp)
              · rw [if_neg hit2] at hplayer
                exact absurd (huniq i hi hplayer) hip
        · -- no object sits on a wall tile
          intro i hi hwi
          rw [hfin i]
          by_cases hip : i = Layer.index g.player_index
          · rw [if_pos hip]
          · rw [if_neg hip]
            by_cases hit : i = Layer.index t
            · subst hit
              rw [httflat] at hwi
              exact absurd (by injection hwi) htW
            · rw [if_neg hit]
              by_cases hit2 : i = Layer.index t2
              · subst hit2
                rw [htt2flat] at hwi
                exact absurd (by injection hwi) hw2
              · rw [if_neg hit2]
                exact hwall i hi hwi
        · -- the goal counter matches the recount
          have hcnt := @countP_range_update2 (uncovP g.board)
            (uncovP { tiles := g.board.tiles, objects := objs2 })
            64 (Layer.index t) (Layer.index t2)
            hidx_t hidx_t2 ht2ne_t.symm ?hcong
          case hcong =>
            intro i hi1 hi2
            simp only [uncovP]
            rw [hfin i, if_neg hi1, if_neg hi2]
            by_cases hip : i = Layer.index g.player_index
            · rw [if_pos hip, hip, hpflat]
              simp
            · rw [if_neg hip]
          · have e1 : uncovP g.board (Layer.index t) = false := by
              simp [uncovP, hotflat]
            have e2 : uncovP g.board (Layer.index t2)
                = decide (tt2 = Tile.Goal) := by
              simp [uncovP, htt2flat, hot2flat]
            have e3 : uncovP { tiles := g.board.tiles, objects := objs2 } (Layer.index t)
                = decide (tt = Tile.Goal) := by
              simp only [uncovP]
              rw [hfin (Layer.index t), if_neg (fun h => htne h), if_pos rfl]
              simp [httflat]
            have e4 : uncovP { tiles := g.board.tiles, objects := objs2 } (Layer.index t2)
                = false := by
              simp only [uncovP]
              rw [hfin (Layer.index t2), if_neg (fun h => ht2ne_p h),
                if_neg (fun h => ht2ne_t h), if_pos rfl]
              simp
            rw [e1, e2, e3, e4] at hcnt
            show (if tt2 = Tile.Goal then
                (if tt = Tile.Goal then g.goals_left + 1 else g.goals_left) - 1
               else (if tt = Tile.Goal then g.goals_left + 1 else g.goals_left))
              = count_goals_uncovered
                { tiles := g.board.tiles, objects := objs2 }
            rw [hgoals] at hund ⊢
            unfold count_goals_uncovered at *
            have hcnt' : (List.range 64).countP
                (uncovP { tiles := g.board.tiles, objects := objs2 }) =
              (List.range (BOARD_WIDTH * BOARD_HEIGHT)).countP
                (uncovP { tiles := g.board.tiles, objects := objs2 }) := rfl
            have hrange : (List.range 64).countP (uncovP g.board) =
              (List.range (BOARD_WIDTH * BOARD_HEIGHT)).countP (uncovP g.board) := rfl
            by_cases hG : tt = Tile.Goal <;> by_cases hG2 : tt2 = Tile.Goal <;>
              simp only [hG, hG2, decide_eq_true_eq, eq_self_iff_true, if_true, if_false,
                iff_true, iff_false, not_true, not_false_iff] at hcnt hund ⊢ <;>
              omega
        · -- the move fully applied
          refine ⟨t, ht, rfl, rfl, ?_, ?_, ?_, ?_⟩
          · apply Layer.get_eq_ok.2
            rw [hfin (Layer.index t), if_neg (fun h => htne h), if_pos rfl]
          · apply Layer.get_eq_ok.2
            rw [hfin (Layer.index g.player_index), if_pos rfl]
          · intro _
            refine ⟨t2, ht2', ?_, ?_⟩
            · apply Layer.get_eq_ok.2
              rw [hfin (Layer.index t2), if_neg (fun h => ht2ne_p h),
                if_neg (fun h => ht2ne_t h), if_pos rfl]
            · have egt2 : (g.board.tiles.get t2 = Except.ok Tile.Goal) ↔ (tt2 = Tile.Goal) := by
                rw [htt2]
                simp
              have egt : (g.board.tiles.get t = Except.ok Tile.Goal) ↔ (tt = Tile.Goal) := by
                rw [htt]
                simp
              show (if tt2 = Tile.Goal then
                  (if tt = Tile.Goal then g.goals_left + 1 else g.goals_left) - 1
                 else (if tt = Tile.Goal then g.goals_left + 1 else g.goals_left))
                + (if g.board.tiles.get t2 = Except.ok Tile.Goal then 1 else 0)
                = g.goals_left + (if g.board.tiles.get t = Except.ok Tile.Goal then 1 else 0)
              rw [if_congr egt2 rfl rfl, if_congr egt rfl rfl]
              have hu := hund
              by_cases hG : tt = Tile.Goal <;> by_cases hG2 : tt2 = Tile.Goal <;>
                simp only [hG, hG2, decide_eq_true_eq, eq_self_iff_true, if_true, if_false,
                  iff_true, iff_false, not_true, not_false_iff, forall_true_left] at hu ⊢ <;>
                omega
          · intro hContra
            exact absurd hot hContra
      · -- push onto an occupied cell: total no-op
        have hmb : g.move_box t off = Except.ok (g, false) :=
          move_box_fail_occupied ht2' htt2 hw2 hot2 ho2
        exact ⟨g, move_player_noop_failpush ht hot hmb htt, hInv, Or.inl rfl⟩
  · -- no box at the target cell
    by_cases hw : tt = Tile.Wall
    · -- walking into a wall: no-op
      subst hw
      exact ⟨g, move_player_noop_wall ht hot hbox htt, hInv, Or.inl rfl⟩
    · -- plain move onto a free cell
      have hnone : ot = Obj.None := by
        cases ot with
        | None => rfl
        | Player => exact absurd (Layer.index_inj ht1 hp1 (huniq _ hidx_t hotflat)) (by
            intro h
            exact htne (by rw [h]))
        | Box => exact absurd rfl hbox
      subst hnone
      have hr : (if Obj.None = Obj.Box then g.move_box t off else Except.ok (g, true))
          = Except.ok (g, true) := by
        rw [if_neg (by simp)]
      obtain ⟨objs2, hsw2, hmp, hget2⟩ := move_player_go ht hot hr htt hw hot hpat
      have hfin : ∀ j, objs2.val[j]? =
          if j = Layer.index g.player_index then some Obj.None
          else if j = Layer.index t then some Obj.Player
          else g.board.objects.val[j]? := by
        intro j
        rw [hget2 j]
      refine ⟨_, hmp, ⟨htiles, ht1, ht2, ?_, ?_, ?_, ?_⟩, Or.inr ?_⟩
      · apply Layer.get_eq_ok.2
        rw [hfin (Layer.index t), if_neg (fun h => htne h), if_pos rfl]
      · intro i hi hplayer
        rw [hfin i] at hplayer
        by_cases hip : i = Layer.index g.player_index
        · rw [if_pos hip] at hplayer
          exact absurd hplayer (by simp)
        · rw [if_neg hip] at hplayer
          by_cases hit : i = Layer.index t
          · exact hit
          · rw [if_neg hit] at hplayer
            exact absurd (huniq i hi hplayer) hip
      · intro i hi hwi
        rw [hfin i]
        by_cases hip : i = Layer.index g.player_index
        · rw [if_pos hip]
        · rw [if_neg hip]
          by_cases hit : i = Layer.index t
          · subst hit
            rw [httflat] at hwi
            exact absurd (by injection hwi) hw
          · rw [if_neg hit]
            exact hwall i hi hwi
      · -- the goal counter is untouched by a plain move
        show g.goals_left = count_goals_uncovered { tiles := g.board.tiles, objects := objs2 }
        rw [hgoals]
        unfold count_goals_uncovered
        apply List.countP_congr
        intro i _
        simp only [uncovP]
        rw [hfin i]
        by_cases hip : i = Layer.index g.player_index
        · rw [if_pos hip, hip, hpflat]
          simp
        · rw [if_neg hip]
          by_cases hit : i = Layer.index t
          · rw [if_pos hit, hit, hotflat]
            simp
          · rw [if_neg hit]
      · refine ⟨t, ht, rfl, rfl, ?_, ?_, ?_, ?_⟩
        · apply Layer.get_eq_ok.2
          rw [hfin (Layer.index t), if_neg (fun h => htne h), if_pos rfl]
        · apply Layer.get_eq_ok.2
          rw [hfin (Layer.index g.player_index), if_pos rfl]
        · intro hContra
          rw [hot] at hContra
          exact absurd (by injection hContra) (by simp)
        · intro _
          rfl

/-! ### Reachability and the invariant -/

theorem gameInv_init : GameInv initGame := by decide

theorem reachable_inv {g : Game} (h : Reachable g) : GameInv g := by
  induction h with
  | init => exact gameInv_init
  | step hr hoff hmv ih =>
    obtain ⟨g'', hmv', hinv', -⟩ := move_player_spec ih hoff
    rw [hmv] at hmv'
    injection hmv' with hEq
    rw [hEq]
    exact hinv'

/-! ### `find?` returns the first hit -/

theorem find?_first {α : Type} {l : List α} {p : α → Bool} {a : α} (h : l.find? p = some a) :
    ∃ i : Nat, l[i]? = some a ∧ p a = true ∧
      ∀ j : Nat, j < i → ∀ b, l[j]? = some b → p b = false := by
  induction l with
  | nil => simp at h
  | cons x xs ih =>
    by_cases hx : p x = true
    · rw [List.find?_cons_of_pos _ hx] at h
      injection h with h
      subst h
      exact ⟨0, List.getElem?_cons_zero, hx, fun j hj => absurd hj (Nat.not_lt_zero j)⟩
    · rw [List.find?_cons_of_neg _ hx] at h
      obtain ⟨i, hi, hpa, hfirst⟩ := ih h
      have hi' : (x :: xs)[i + 1]? = some a := by
        rw [List.getElem?_cons_succ]
        exact hi
      refine ⟨i + 1, hi', hpa, ?_⟩
      intro j hj b hb
      cases j with
      | zero =>
        rw [List.getElem?_cons_zero] at hb
        injection hb with hb
        subst hb
        simpa using hx
      | succ j =>
        rw [List.getElem?_cons_succ] at hb
        exact hfirst j (by omega) b hb

theorem coordList_get : ∀ k < 64, coordList[k]? = some (k % 8, k / 8) := by decide

theorem coordList_mem_bounds : ∀ c ∈ coordList, c.1 < 8 ∧ c.2 < 8 := by decide

theorem coordList_complete : ∀ x < 8, ∀ y < 8, (x, y) ∈ coordList := by decide

/-! ### Inversion facts about `Game::new`, `move_box` and `move_player` -/

theorem new_ok {b : Board} {g : Game} (h : Game.new b = Except.ok g) :
    g.board = b ∧ g.goals_left = b.count_goals := by
  unfold Game.new at h
  cases hf : b.find_player with
  | error e => rw [hf] at h; simp at h
  | ok p =>
    rw [hf] at h
    injection h with h
    subst h
    exact ⟨rfl, rfl⟩

/-- Complete case analysis of a non-panicking `move_box` call: it either
fails leaving the game untouched, or pushes the box and reports the
adjusted goal counter. -/
theorem move_box_cases {g : Game} {s : Vec2D} {off : Off2D} {res : Game × Bool}
    (h : g.move_box s off = Except.ok res) :
    res = (g, false) ∨
    (res.2 = true ∧ ∃ t tt ts objs,
      offsetE s off = Except.ok t ∧
      g.board.tiles.get t = Except.ok tt ∧ tt ≠ Tile.Wall ∧
      g.board.objects.get t = Except.ok Obj.None ∧
      g.board.tiles.get s = Except.ok ts ∧
      g.board.objects.swap t s = Except.ok objs ∧
      (tt = Tile.Goal → (if ts = Tile.Goal then g.goals_left + 1 else g.goals_left) ≠ 0) ∧
      (ts = Tile.Goal → g.goals_left + 1 < USIZE) ∧
      res.1 = { g with
        board := { g.board with objects := objs },
        goals_left := (if tt = Tile.Goal then
            (if ts = Tile.Goal then g.goals_left + 1 else g.goals_left) - 1
          else (if ts = Tile.Goal then g.goals_left + 1 else g.goals_left)) }) := by
  unfold Game.move_box at h
  split at h
  · exact absurd h (by simp)
  · rename_i t htarget
    split at h
    · exact absurd h (by simp)
    · rename_i tt htt
      split at h
      · injection h with h
        exact Or.inl h.symm
      · rename_i hW
        split at h
        · exact absurd h (by simp)
        · rename_i ot hot
          split at h
          · injection h with h
            exact Or.inl h.symm
          · rename_i hO
            have hON : ot = Obj.None := not_not.mp hO
            subst hON
            split at h
            · exact absurd h (by simp)
            · rename_i ts hts
              split at h
              · exact absurd h (by simp)
              · rename_i g1 hg1
                split at h
                · exact absurd h (by simp)
                · rename_i g2 hg2
                  split at h
                  · exact absurd h (by simp)
                  · rename_i objs hsw
                    injection h with h
                    refine Or.inr ?_
                    by_cases hts1 : ts = Tile.Goal
                    · rw [if_pos hts1] at hg1
                      by_cases hguard : g.goals_left + 1 < USIZE
                      · rw [if_pos hguard] at hg1
                        injection hg1 with hg1
                        subst hg1
                        have hgl : ({ g with goals_left := g.goals_left + 1 } : Game).goals_left
                            = g.goals_left + 1 := rfl
                        by_cases htt1 : tt = Tile.Goal
                        · rw [if_pos htt1] at hg2
                          rw [hgl] at hg2
                          by_cases hg0 : g.goals_left + 1 = 0
                          · rw [if_pos hg0] at hg2
                            exact absurd hg2 (by simp)
                          · rw [if_neg hg0] at hg2
                            injection hg2 with hg2
                            subst hg2
                            refine ⟨by rw [← h], t, tt, ts, objs, htarget, htt, hW, hot, hts,
                              hsw, ?_, fun _ => hguard, ?_⟩
                            · intro _
                              rw [if_pos hts1]
                              omega
                            · rw [← h]
                              simp [hts1, htt1]
                        · rw [if_neg htt1] at hg2
                          injection hg2 with hg2
                          subst hg2
                          refine ⟨by rw [← h], t, tt, ts, objs, htarget, htt, hW, hot, hts,
                            hsw, fun hc => absurd hc htt1, fun _ => hguard, ?_⟩
                          rw [← h]
                          simp [hts1, htt1]
                      · rw [if_neg hguard] at hg1
                        exact absurd hg1 (by simp)
                    · rw [if_neg hts1] at hg1
                      injection hg1 with hg1
                      subst hg1
                      by_cases htt1 : tt = Tile.Goal
                      · rw [if_pos htt1] at hg2
                        by_cases hg0 : g.goals_left = 0
                        · rw [if_pos hg0] at hg2
                          exact absurd hg2 (by simp)
                        · rw [if_neg hg0] at hg2
                          injection hg2 with hg2
                          subst hg2
                          refine ⟨by rw [← h], t, tt, ts, objs, htarget, htt, hW, hot, hts,
                            hsw, ?_, fun hc => absurd hc hts1, ?_⟩
                          · intro _
                            rw [if_neg hts1]
                            exact hg0
                          · rw [← h]
                            simp [hts1, htt1]
                      · rw [if_neg htt1] at hg2
                        injection hg2 with hg2
                        subst hg2
                        refine ⟨by rw [← h], t, tt, ts, objs, htarget, htt, hW, hot, hts,
                          hsw, fun hc => absurd hc htt1, fun hc => absurd hc hts1, ?_⟩
                        rw [← h]
                        simp [hts1, htt1]

/-- Complete case analysis of a non-panicking `move_player` call. -/
theorem move_player_cases {g : Game} {off : Off2D} {g' : Game}
    (h : g.move_player off = Except.ok g') :
    ∃ t ot g1 pushed,
      offsetE g.player_index off = Except.ok t ∧
      g.board.objects.get t = Except.ok ot ∧
      (if ot = Obj.Box then g.move_box t off else Except.ok (g, true))
        = Except.ok (g1, pushed) ∧
      (g' = g1 ∨ ∃ objs, g1.board.objects.swap t g1.player_index = Except.ok objs ∧
        g' = { g1 with board := { g1.board with objects := objs }, player_index := t }) := by
  unfold Game.move_player at h
  split at h
  · exact absurd h (by simp)
  · rename_i t htarget
    split at h
    · exact absurd h (by simp)
    · rename_i ot hot
      split at h
      · exact absurd h (by simp)
      · rename_i r g1 pushed hr
        split at h
        · exact absurd h (by simp)
        · rename_i tt htt
          split at h
          · injection h with h
            exact ⟨t, ot, g1, pushed, htarget, hot, hr, Or.inl h.symm⟩
          · split at h
            · exact absurd h (by simp)
            · rename_i objs hsw
              injection h with h
              exact ⟨t, ot, g1, pushed, htarget, hot, hr,
                Or.inr ⟨objs, hsw, h.symm⟩⟩

/-! ### Relating `count_goals` to the uncovered-goal count -/

theorem count_goals_eq_uncovered_of_no_covered {b : Board}
    (h : ∀ i < 64, ¬(b.tiles.val[i]? = some Tile.Goal ∧ b.objects.val[i]? = some Obj.Box)) :
    b.count_goals = count_goals_uncovered b := by
  unfold Board.count_goals count_goals_uncovered
  have hlen : b.tiles.val.length = 64 := Layer.length_val b.tiles
  have h1 := countP_eq_range b.tiles.val (fun tl => decide (tl = Tile.Goal))
  rw [hlen] at h1
  rw [← h1]
  apply List.countP_congr
  intro i hi
  have hi64 : i < 64 := by
    have := List.mem_range.1 hi
    simpa [BOARD_WIDTH, BOARD_HEIGHT] using this
  have hti : i < b.tiles.val.length := by omega
  rw [List.getElem?_eq_getElem hti]
  simp only [Option.elim, uncovP, decide_eq_true_eq]
  by_cases hG : b.tiles.val[i] = Tile.Goal
  · have hnb : ¬ b.objects.val[i]? = some Obj.Box := by
      intro hbx
      exact h i hi64 ⟨by rw [List.getElem?_eq_getElem hti, hG], hbx⟩
    simp [hG, hnb, List.getElem?_eq_getElem hti]
  · simp [hG, List.getElem?_eq_getElem hti]

/-! ### The claims -/

/-- Claim C1, as stated, is false: `Game::new` derives `goals_left` from
`Board::count_goals`, which counts every Goal tile and ignores the object
layer.  On `cexBoard` (one goal tile, covered by a box from the start)
the cache is 1 while the number of Goal cells without a Box is 0. -/
theorem C1_counterexample :
    ¬ ∀ (b : Board) (g : Game), Game.new b = Except.ok g →
        g.goals_left = count_goals_uncovered b :=
  fun hall => absurd (hall cexBoard cexGame (by decide)) (by decide)

/-- Claim C1 (amended): at construction `goals_left` equals
`Board::count_goals`, the plain number of Goal tiles; this coincides with
the number of cells whose Tile is Goal and whose Object is not Box exactly
when no Goal cell initially holds a Box (which holds for the fixed initial
layout). -/
theorem C1_goals_cache_at_construction :
    ∀ (b : Board) (g : Game), Game.new b = Except.ok g →
      (∀ i < 64, ¬(b.tiles.val[i]? = some Tile.Goal ∧ b.objects.val[i]? = some Obj.Box)) →
      g.goals_left = b.count_goals ∧ g.goals_left = count_goals_uncovered b := by
  intro b g hnew hnc
  obtain ⟨-, hg⟩ := new_ok hnew
  exact ⟨hg, by rw [hg]; exact count_goals_eq_uncovered_of_no_covered hnc⟩

/-- Witness for C1 (amended) at the fixed initial layout. -/
theorem C1_witness :
    Game.new initBoard = Except.ok initGame ∧
    initGame.goals_left = count_goals_uncovered initBoard :=
  ⟨by decide, (C1_goals_cache_at_construction initBoard initGame (by decide) (by decide)).2⟩

/-- Claim C2: for the game built by `Game::new` from the fixed initial
layout, after any sequence of `move_player` calls the cached `goals_left`
equals the independently recomputed count of Goal-tiled cells whose object
is not a Box. -/
theorem C2_goals_cache_invariant :
    Game.new initBoard = Except.ok initGame ∧
    ∀ g, Reachable g → g.goals_left = count_goals_uncovered g.board :=
  ⟨by decide, fun _ h => (reachable_inv h).2.2.2.2.2.2⟩

/-- Witness for C2 at the initial game. -/
theorem C2_witness : initGame.goals_left = count_goals_uncovered initGame.board :=
  C2_goals_cache_invariant.2 initGame Reachable.init

/-- Claim C3: in every reachable state exactly one cell of the object
layer holds `Player` — a grid cell holds `Player` iff it is the cached
`player_index` (which is itself a grid coordinate). -/
theorem C3_unique_player :
    ∀ g, Reachable g →
      (g.player_index.1 < 8 ∧ g.player_index.2 < 8) ∧
      ∀ c : Vec2D, c.1 < 8 → c.2 < 8 →
        (g.board.objects.get c = Except.ok Obj.Player ↔ c = g.player_index) := by
  intro g h
  obtain ⟨-, hp1, hp2, hpat, huniq, -, -⟩ := reachable_inv h
  refine ⟨⟨hp1, hp2⟩, fun c hc1 hc2 => ⟨fun hoc => ?_, fun hc => ?_⟩⟩
  · have hflat := Layer.get_eq_ok.1 hoc
    exact Layer.index_inj hc1 hp1 (huniq _ (Layer.index_lt_64 hc1 hc2) hflat)
  · rw [hc]
    exact hpat

/-- Witness for C3 at the initial game: the player cell is `(1, 6)`. -/
theorem C3_witness : initGame.board.objects.get (1, 6) = Except.ok Obj.Player :=
  ((C3_unique_player initGame Reachable.init).2 (1, 6) (by decide) (by decide)).2 rfl

/-- Claim C4: in a reachable state, an illegal `move_player` call — the
target cell is Wall-tiled with no box present, or the target holds a Box
whose own target cell is Wall-tiled or occupied — returns the state
entirely unchanged (same board, `player_index`, and `goals_left`). -/
theorem C4_illegal_moves_noop :
    ∀ g, Reachable g → ∀ off ∈ canonicalOffsets, ∀ t : Vec2D,
      offsetE g.player_index off = Except.ok t →
      ((g.board.tiles.get t = Except.ok Tile.Wall ∧
          g.board.objects.get t ≠ Except.ok Obj.Box) →
        g.move_player off = Except.ok g) ∧
      (∀ t2 : Vec2D, g.board.objects.get t = Except.ok Obj.Box →
        offsetE t off = Except.ok t2 →
        (g.board.tiles.get t2 = Except.ok Tile.Wall ∨
          g.board.objects.get t2 ≠ Except.ok Obj.None) →
        g.move_player off = Except.ok g) := by
  intro g hreach off hoff t ht
  have hInv := reachable_inv hreach
  constructor
  · rintro ⟨hW, hnb⟩
    have hidx : Layer.index t < 64 := by
      have hlt := (List.getElem?_eq_some.1 (Layer.get_eq_ok.1 hW)).1
      rw [Layer.length_val] at hlt
      exact hlt
    obtain ⟨ot, hot, -⟩ := Layer.get_ok_of_lt g.board.objects hidx
    have hbox : ot ≠ Obj.Box := fun hc => hnb (by rw [hot, hc])
    exact move_player_noop_wall ht hot hbox hW
  · intro t2 hb ht2 hillegal
    have hbflat := Layer.get_eq_ok.1 hb
    have hidx : Layer.index t < 64 := by
      have hlt := (List.getElem?_eq_some.1 hbflat).1
      rw [Layer.length_val] at hlt
      exact hlt
    have ht' := offsetE_canonical hoff (gameInv_player_interior hInv)
    rw [ht] at ht'
    injection ht' with ht'
    have hbnds := addOff_canonical hoff (gameInv_player_interior hInv)
    rw [← ht'] at hbnds
    have hTint : Interior t := gameInv_no_obj_on_wall hInv hbnds.1 hbnds.2.1 hbflat (by simp)
    have ht2'' := offsetE_canonical hoff hTint
    rw [ht2] at ht2''
    injection ht2'' with ht2''
    have b2 := addOff_canonical hoff hTint
    rw [← ht2''] at b2
    have hidx2 : Layer.index t2 < 64 := Layer.index_lt_64 b2.1 b2.2.1
    obtain ⟨tt2, htt2, -⟩ := Layer.get_ok_of_lt g.board.tiles hidx2
    obtain ⟨tt, htt, -⟩ := Layer.get_ok_of_lt g.board.tiles hidx
    by_cases hw2 : tt2 = Tile.Wall
    · have hmb := move_box_fail_wall (g := g) ht2 (by rw [htt2, hw2])
      exact move_player_noop_failpush ht hb hmb htt
    · obtain ⟨ot2, hot2, -⟩ := Layer.get_ok_of_lt g.board.objects hidx2
      rcases hillegal with hIll | hIll
      · exfalso
        rw [htt2] at hIll
        exact hw2 (by injection hIll)
      · have hO : ot2 ≠ Obj.None := fun hc => hIll (by rw [hot2, hc])
        have hmb := move_box_fail_occupied ht2 htt2 hw2 hot2 hO
        exact move_player_noop_failpush ht hb hmb htt

/-- Witness for C4: from the initial game, moving left runs into the Wall
at `(0, 6)` and the call returns the state unchanged. -/
theorem C4_witness : initGame.move_player (-1, 0) = Except.ok initGame :=
  (C4_illegal_moves_noop initGame Reachable.init (-1, 0) (by decide) (0, 6)
    (by decide)).1 (by decide)

/-- Claim C5: a successful box push adjusts `goals_left` exactly by the
box's source and destination tiles: +1 leaving a goal for a non-goal, −1
entering a goal from a non-goal, unchanged when both or neither cell is a
goal; no other tile (in particular the player's) enters the computation. -/
theorem C5_push_goal_accounting :
    ∀ (g : Game) (source : Vec2D) (off : Off2D) (g' : Game) (t : Vec2D),
      offsetE source off = Except.ok t →
      g.move_box source off = Except.ok (g', true) →
      ((g.board.tiles.get source = Except.ok Tile.Goal ∧
          g.board.tiles.get t ≠ Except.ok Tile.Goal) →
        g'.goals_left = g.goals_left + 1) ∧
      ((g.board.tiles.get source ≠ Except.ok Tile.Goal ∧
          g.board.tiles.get t = Except.ok Tile.Goal) →
        g'.goals_left + 1 = g.goals_left) ∧
      (((g.board.tiles.get source = Except.ok Tile.Goal) ↔
          (g.board.tiles.get t = Except.ok Tile.Goal)) →
        g'.goals_left = g.goals_left) := by
  intro g source off g' t hofs h
  rcases move_box_cases h with hfail | ⟨-, t', tt, ts, objs, hofs', htt, hW, hot, hts,
    hsw, hund, hovf, hres⟩
  · exact absurd hfail (by simp)
  · rw [hofs] at hofs'
    injection hofs' with hteq
    subst hteq
    have hgl : g'.goals_left = (if tt = Tile.Goal then
        (if ts = Tile.Goal then g.goals_left + 1 else g.goals_left) - 1
      else (if ts = Tile.Goal then g.goals_left + 1 else g.goals_left)) := by
      rw [show g' = _ from hres]
    have hiff_s : (g.board.tiles.get source = Except.ok Tile.Goal) ↔ ts = Tile.Goal := by
      rw [hts]
      simp
    have hiff_t : (g.board.tiles.get t = Except.ok Tile.Goal) ↔ tt = Tile.Goal := by
      rw [htt]
      simp
    refine ⟨?_, ?_, ?_⟩
    · rintro ⟨hs, htn⟩
      have hs' := hiff_s.1 hs
      have htn' : ¬ tt = Tile.Goal := fun hc => htn (hiff_t.2 hc)
      rw [hgl, if_neg htn', if_pos hs']
    · rintro ⟨hsn, htg⟩
      have htg' := hiff_t.1 htg
      have hsn' : ¬ ts = Tile.Goal := fun hc => hsn (hiff_s.2 hc)
      have hnz := hund htg'
      rw [if_neg hsn'] at hnz
      rw [hgl, if_pos htg', if_neg hsn']
      omega
    · intro hiff
      by_cases hs' : ts = Tile.Goal
      · have ht' : tt = Tile.Goal := hiff_t.1 (hiff.1 (hiff_s.2 hs'))
        rw [hgl, if_pos ht', if_pos hs']
        omega
      · have ht' : ¬ tt = Tile.Goal := fun hc => hs' (hiff_s.1 (hiff.2 (hiff_t.2 hc)))
        rw [hgl, if_neg ht', if_neg hs']

/-- Witness for C5: pushing the box at `(4, 3)` right onto the plain floor
cell `(5, 3)` succeeds and leaves the counter unchanged. -/
theorem C5_witness :
    initGame.move_box (4, 3) (1, 0) = Except.ok (c5Game, true) ∧
    c5Game.goals_left = initGame.goals_left :=
  ⟨by decide, (C5_push_goal_accounting initGame (4, 3) (1, 0) c5Game (5, 3) (by decide)
    (by decide)).2.2 (by decide)⟩

/-- Claim C6: from a reachable state, a `move_player` call with a driver
offset never panics and either leaves the state exactly as it was or fully
applies the move (player relocated; on a push, box relocated and the
counter adjusted by the box's tiles). -/
theorem C6_atomicity :
    ∀ g, Reachable g → ∀ off ∈ canonicalOffsets,
      ∃ g', g.move_player off = Except.ok g' ∧ (g' = g ∨ FullMove g g' off) := by
  intro g h off hoff
  obtain ⟨g', hmv, -, hfull⟩ := move_player_spec (reachable_inv h) hoff
  exact ⟨g', hmv, hfull⟩

/-- Witness for C6 at the initial game, moving up. -/
theorem C6_witness :
    ∃ g', initGame.move_player (0, -1) = Except.ok g' ∧
      (g' = initGame ∨ FullMove initGame g' (0, -1)) :=
  C6_atomicity initGame Reachable.init (0, -1) (by decide)

/-- Claim C7: `find_player` scans rows top to bottom and, within a row,
left to right; it returns the first cell holding `Player`, and panics
(`Err.noPlayer`) exactly when no grid cell holds `Player`. -/
theorem C7_find_player_row_major :
    ∀ b : Board,
      (b.find_player = Except.error Err.noPlayer ↔
        ∀ x < 8, ∀ y < 8, b.objects.get (x, y) ≠ Except.ok Obj.Player) ∧
      (∀ x y : Nat, b.find_player = Except.ok (x, y) →
        x < 8 ∧ y < 8 ∧ b.objects.get (x, y) = Except.ok Obj.Player ∧
        ∀ x' y' : Nat, x' < 8 → y' < 8 → y' * 8 + x' < y * 8 + x →
          b.objects.get (x', y') ≠ Except.ok Obj.Player) := by
  intro b
  constructor
  · constructor
    · intro hnone x hx y hy hplayer
      unfold Board.find_player at hnone
      cases hf : coordList.find? (fun c =>
          match b.objects.get c with
          | Except.ok Obj.Player => true
          | _ => false) with
      | some c =>
        rw [hf] at hnone
        exact absurd hnone (by simp)
      | none =>
        have hmem := List.find?_eq_none.1 hf (x, y) (coordList_complete x hx y hy)
        simp [hplayer] at hmem
    · intro hall
      unfold Board.find_player
      have hf : coordList.find? (fun c =>
          match b.objects.get c with
          | Except.ok Obj.Player => true
          | _ => false) = none := by
        rw [List.find?_eq_none]
        intro c hc
        obtain ⟨hc1, hc2⟩ := coordList_mem_bounds c hc
        have hne := hall c.1 hc1 c.2 hc2
        cases hg : b.objects.get c with
        | error e => simp [hg]
        | ok o =>
          cases o with
          | Player => exact absurd hg hne
          | None => simp [hg]
          | Box => simp [hg]
      rw [hf]
  · intro x y hfp
    unfold Board.find_player at hfp
    cases hf : coordList.find? (fun c =>
        match b.objects.get c with
        | Except.ok Obj.Player => true
        | _ => false) with
    | none =>
      rw [hf] at hfp
      exact absurd hfp (by simp)
    | some c =>
      rw [hf] at hfp
      injection hfp with hfp
      subst hfp
      obtain ⟨i, hgi, hpi, hfirst⟩ := find?_first hf
      have hi64 : i < 64 := by
        have hlen := (List.getElem?_eq_some.1 hgi).1
        have hcl : coordList.length = 64 := by decide
        omega
      have hcoord := coordList_get i hi64
      rw [hgi] at hcoord
      injection hcoord with hcoord
      have hx : x = i % 8 := congrArg Prod.fst hcoord
      have hy : y = i / 8 := congrArg Prod.snd hcoord
      have hx8 : x < 8 := by omega
      have hy8 : y < 8 := by omega
      refine ⟨hx8, hy8, ?_, ?_⟩
      · cases hg : b.objects.get (x, y) with
        | error e => simp [hg] at hpi
        | ok o =>
          cases o with
          | Player => rfl
          | None => simp [hg] at hpi
          | Box => simp [hg] at hpi
      · intro x' y' hx' hy' hord hplayer
        have hj : y' * 8 + x' < i := by omega
        have hj64 : y' * 8 + x' < 64 := by omega
        have hjco := coordList_get (y' * 8 + x') hj64
        have hjm : (y' * 8 + x') % 8 = x' := by omega
        have hjd : (y' * 8 + x') / 8 = y' := by omega
        rw [hjm, hjd] at hjco
        have hfalse := hfirst (y' * 8 + x') hj (x', y') hjco
        simp [hplayer] at hfalse

/-- Witness for C7: on the initial board the first (row-major) player cell
is `(1, 6)` and it indeed holds `Player`. -/
theorem C7_witness :
    initBoard.find_player = Except.ok (1, 6) ∧
    initBoard.objects.get (1, 6) = Except.ok Obj.Player :=
  ⟨by decide, ((C7_find_player_row_major initBoard).2 1 6 (by decide)).2.2.1⟩

/-- Claim C8: in every reachable state the player sits strictly inside the
Wall outer ring, and a `move_player` call with a driver offset never takes
the out-of-bounds branch of the array indexing. -/
theorem C8_in_bounds :
    ∀ g, Reachable g → Interior g.player_index ∧
      ∀ off ∈ canonicalOffsets, g.move_player off ≠ Except.error Err.oob := by
  intro g h
  have hInv := reachable_inv h
  refine ⟨gameInv_player_interior hInv, fun off hoff hcon => ?_⟩
  obtain ⟨g', hmv, -, -⟩ := move_player_spec hInv hoff
  rw [hmv] at hcon
  exact absurd hcon (by simp)

/-- Witness for C8 at the initial game, moving up. -/
theorem C8_witness :
    Interior initGame.player_index ∧
    initGame.move_player (0, -1) ≠ Except.error Err.oob :=
  ⟨(C8_in_bounds initGame Reachable.init).1,
   (C8_in_bounds initGame Reachable.init).2 (0, -1) (by decide)⟩

/-- Claim C9: neither `move_player` nor `move_box` ever mutates the Tile
layer — every mutation goes through the object-layer swap. -/
theorem C9_tiles_immutable :
    (∀ (g : Game) (off : Off2D) (g' : Game),
      g.move_player off = Except.ok g' → g'.board.tiles = g.board.tiles) ∧
    (∀ (g : Game) (s : Vec2D) (off : Off2D) (res : Game × Bool),
      g.move_box s off = Except.ok res → res.1.board.tiles = g.board.tiles) := by
  have hbox : ∀ (g : Game) (s : Vec2D) (off : Off2D) (res : Game × Bool),
      g.move_box s off = Except.ok res → res.1.board.tiles = g.board.tiles := by
    intro g s off res h
    rcases move_box_cases h with hfail | ⟨-, t, tt, ts, objs, -, -, -, -, -, -, -, -, hres⟩
    · rw [hfail]
    · rw [hres]
  refine ⟨?_, hbox⟩
  intro g off g' h
  obtain ⟨t, ot, g1, pushed, -, -, hr, hrest⟩ := move_player_cases h
  have hg1 : g1.board.tiles = g.board.tiles := by
    by_cases hb : ot = Obj.Box
    · rw [if_pos hb] at hr
      exact hbox g t off (g1, pushed) hr
    · rw [if_neg hb] at hr
      injection hr with hr
      have hg : g = g1 := congrArg Prod.fst hr
      rw [← hg]
  rcases hrest with hg' | ⟨objs, -, hg'⟩
  · rw [hg']
    exact hg1
  · rw [hg']
    exact hg1

/-- Witness for C9: the legal upward move from the initial game leaves the
Tile layer untouched. -/
theorem C9_witness :
    initGame.move_player (0, -1) = Except.ok c9Game ∧
    c9Game.board.tiles = initGame.board.tiles :=
  ⟨by decide, C9_tiles_immutable.1 initGame (0, -1) c9Game (by decide)⟩

/-- Claim C10: in every reachable state, a `move_player` call with a
driver offset never underflows the unsigned `goals_left` decrement —
whenever the decrement is reached the counter is at least 1. -/
theorem C10_no_goals_underflow :
    ∀ g, Reachable g → ∀ off ∈ canonicalOffsets,
      g.move_player off ≠ Except.error Err.underflow := by
  intro g h off hoff hcon
  obtain ⟨g', hmv, -, -⟩ := move_player_spec (reachable_inv h) hoff
  rw [hmv] at hcon
  exact absurd hcon (by simp)

/-- Witness for C10 at the initial game, moving up. -/
theorem C10_witness : initGame.move_player (0, -1) ≠ Except.error Err.underflow :=
  C10_no_goals_underflow initGame Reachable.init (0, -1) (by decide)
